import Mathlib

/-!
Shallow embedding of the Obsidian RAG plugin (TypeScript sources under
`src/plugin/src`) used to check the natural-language specification.

The TypeScript is modelled as pure Lean functions: JS objects become
structures (with `Option` fields where a JS property may be `undefined`),
thrown exceptions become `Except String`, and async interleavings become
explicit state-passing steps.
-/

namespace ObsidianRAG

/-- A JSON value, the result of `response.json()`.  Numbers are modelled as
integers (the plugin only ever transports sizes, timestamps and counts). -/
inductive JValue where
  | str (s : String)
  | num (n : Int)
  | boolean (b : Bool)
  | null
  | arr (items : List JValue)
  | obj (fields : List (String × JValue))

/-- Field lookup on a JSON object (`undefined` on non-objects / missing keys). -/
def JValue.lookup (j : JValue) (key : String) : Option JValue :=
  match j with
  | .obj fields => (fields.find? (fun kv => kv.1 = key)).map (fun kv => kv.2)
  | _ => none

/-- A resolved `fetch` response: the fields of the Response object that
`RAGApi.request` inspects (`ok`, `statusText`) plus the parsed JSON body. -/
structure HttpResponse where
  ok : Bool
  statusText : String
  body : JValue

/-- The request descriptor an `RAGApi` operation hands to `fetch`:
endpoint (appended to `baseUrl`), HTTP method, and optional JSON body. -/
structure ApiRequest where
  endpoint : String
  method : String
  body : Option JValue

/-- `RAGApi.request` (src/plugin/src/api/RAGApi.ts, lines 54-70): if the
response is not ok, throw `API request failed: <statusText>`; otherwise
return the parsed JSON body. -/
def RAGApi.request (r : HttpResponse) : Except String JValue :=
  if !r.ok then
    Except.error ("API request failed: " ++ r.statusText)
  else
    Except.ok r.body

/-- The request built by `RAGApi.search`: POST /search with
`\x7b query, max_results \x7d`. -/
def RAGApi.searchRequest (query : String) (maxResults : Nat) : ApiRequest :=
  { endpoint := "/search", method := "POST",
    body := some (.obj [("query", .str query), ("max_results", .num maxResults)]) }

/-- The request built by `RAGApi.chat`: POST /chat with
`\x7b query, vault_name \x7d` (`vault_name` may be undefined). -/
def RAGApi.chatRequest (query : String) (vaultName : Option String) : ApiRequest :=
  { endpoint := "/chat", method := "POST",
    body := some (.obj [("query", .str query),
                        ("vault_name", match vaultName with
                                       | some v => .str v
                                       | none => .null)]) }

/-- Document metadata sent with an index request
(src/plugin/src/api/RAGApi.ts, `Document` interface). -/
structure DocMetadata where
  path : String
  name : String
  size : Nat
  created : Nat
  modified : Nat
deriving DecidableEq

/-- A document payload for `RAGApi.indexDocument`. -/
structure Document where
  content : String
  metadata : DocMetadata
deriving DecidableEq

/-- JSON encoding of a document, as `JSON.stringify` produces it. -/
def Document.toJson (d : Document) : JValue :=
  .obj [("content", .str d.content),
        ("metadata", .obj [("path", .str d.metadata.path),
                           ("name", .str d.metadata.name),
                           ("size", .num d.metadata.size),
                           ("created", .num d.metadata.created),
                           ("modified", .num d.metadata.modified)])]

/-- The request built by `RAGApi.indexDocument`: POST /index with
`\x7b document \x7d`. -/
def RAGApi.indexDocumentRequest (d : Document) : ApiRequest :=
  { endpoint := "/index", method := "POST",
    body := some (.obj [("document", d.toJson)]) }

/-- The request built by `RAGApi.getServerStatus`: GET / with no body. -/
def RAGApi.getServerStatusRequest : ApiRequest :=
  { endpoint := "/", method := "GET", body := none }

/-- `RAGApi.search`: issue the search request through `request`.
`server` models the transport: the response the server gives each request. -/
def RAGApi.search (server : ApiRequest → HttpResponse)
    (query : String) (maxResults : Nat) : Except String JValue :=
  RAGApi.request (server (RAGApi.searchRequest query maxResults))

/-- `RAGApi.chat`: issue the chat request through `request`. -/
def RAGApi.chat (server : ApiRequest → HttpResponse)
    (query : String) (vaultName : Option String) : Except String JValue :=
  RAGApi.request (server (RAGApi.chatRequest query vaultName))

/-- `RAGApi.indexDocument`: issue the index request through `request`,
discarding the body (the TS method returns `Promise<void>`). -/
def RAGApi.indexDocument (server : ApiRequest → HttpResponse)
    (d : Document) : Except String Unit :=
  (RAGApi.request (server (RAGApi.indexDocumentRequest d))).map (fun _ => ())

/-- `RAGApi.getServerStatus`: issue the status request through `request`. -/
def RAGApi.getServerStatus (server : ApiRequest → HttpResponse) :
    Except String JValue :=
  RAGApi.request (server RAGApi.getServerStatusRequest)

/-- The declared result type of `RAGApi.getServerStatus`
(src/plugin/src/api/RAGApi.ts, lines 112-114):
`\x7b status: string; version: string; stats: any \x7d`. -/
structure ServerStatusResult where
  status : String
  version : String
  stats : JValue

/-- Embedding of the declared `getServerStatus` result type as a parser: a
JSON body conforms to `\x7b status: string; version: string; stats: any \x7d`
exactly when this returns `some`. -/
def parseServerStatus (j : JValue) : Option ServerStatusResult :=
  match j.lookup "status", j.lookup "version", j.lookup "stats" with
  | some (.str s), some (.str v), some st => some { status := s, version := v, stats := st }
  | _, _, _ => none

/-- The extension of a path: the part after the last dot (empty when the
path has no dot).  Obsidian derives `TFile.extension` from the path. -/
def pathExtension (p : String) : String :=
  let rev := p.data.reverse
  if rev.contains '.' then String.mk ((rev.takeWhile (fun c => c ≠ '.')).reverse)
  else ""

/-- An Obsidian `TFile`: path plus the `stat`/`name` fields the plugin reads. -/
structure TFile where
  path : String
  name : String
  size : Nat
  ctime : Nat
  mtime : Nat
deriving DecidableEq

/-- `file.extension`, derived from the path as Obsidian does. -/
def TFile.extension (f : TFile) : String := pathExtension f.path

/-- The document `RAGService.indexBatch` submits for a file whose read
returned `content` (src/plugin/src/api/RAGApi.ts, service part, lines 434-444). -/
def mkDocument (f : TFile) (content : String) : Document :=
  { content := content,
    metadata := { path := f.path, name := f.name, size := f.size,
                  created := f.ctime, modified := f.mtime } }

/-- The body of the per-file async closure in `RAGService.indexBatch`, before
the surrounding try/catch: read the file (a throw aborts the closure), then
submit the document (recorded in the first component) and propagate the index
request outcome.  `read` models `app.vault.read`, `ixResult` the outcome of
`api.indexDocument` for each submitted document. -/
def indexFileAttempt (read : String → Except String String)
    (ixResult : Document → Except String Unit) (f : TFile) :
    List Document × Except String Unit :=
  match read f.path with
  | .error e => ([], .error e)
  | .ok content =>
      let d := mkDocument f content
      ([d], ixResult d)

/-- The try/catch wrapped around each per-file closure in
`RAGService.indexBatch`: any error is logged and swallowed, so the promise
always resolves. -/
def tryCatchLogged : List Document × Except String Unit → List Document × Except String Unit
  | (calls, .error _) => (calls, .ok ())
  | (calls, .ok u) => (calls, .ok u)

/-- `Promise.all` over per-file tasks: all tasks run (their submissions are
all recorded) and the combined promise rejects with the first rejection. -/
def promiseAll : List (List Document × Except String Unit) →
    List Document × Except String Unit
  | [] => ([], .ok ())
  | (calls, res) :: rest =>
      let tail := promiseAll rest
      (calls ++ tail.1, match res with
                        | .error e => .error e
                        | .ok _ => tail.2)

/-- `RAGService.indexBatch` (lines 431-451): map each file to a caught
per-file indexing closure and await them all.  Returns the list of documents
submitted to `api.indexDocument` and the overall outcome. -/
def RAGService.indexBatch (read : String → Except String String)
    (ixResult : Document → Except String Unit) (files : List TFile) :
    List Document × Except String Unit :=
  promiseAll (files.map (fun f => tryCatchLogged (indexFileAttempt read ixResult f)))

/-- Fuelled batching loop: each step takes the next batch of 10.  The fuel
only bounds the recursion depth; one unit per batch suffices since every
batch is nonempty. -/
def batchChunksFuel : Nat → List TFile → List (List TFile)
  | _, [] => []
  | 0, _ :: _ => []
  | fuel + 1, f :: rest => (f :: rest.take 9) :: batchChunksFuel fuel (rest.drop 9)

/-- Split a list into the batches of 10 that `RAGService.indexVault` forms
with `batchSize = 10`. -/
def batchChunks (l : List TFile) : List (List TFile) :=
  batchChunksFuel l.length l

/-- The mutable per-service state the plugin keeps
(`RAGService.isIndexing` and the `modifiedFiles` set, kept as an
insertion-ordered duplicate-free list). -/
structure ServiceState where
  isIndexing : Bool
  modifiedFiles : List String
deriving DecidableEq

/-- The state of a freshly constructed `RAGService`. -/
def initialServiceState : ServiceState :=
  { isIndexing := false, modifiedFiles := [] }

/-- `Set.add`: insert a path into the modified-files set. -/
def addModified (paths : List String) (p : String) : List String :=
  if p ∈ paths then paths else paths ++ [p]

/-- `RAGService.handleFileModify` (lines 453-463): return immediately when no
file is given or its extension is not `md`; otherwise add the path to the
modified-files set (and schedule the debounced processing, modelled as a
separate step). -/
def RAGService.handleFileModify (s : ServiceState) (file : Option TFile) :
    ServiceState :=
  match file with
  | none => s
  | some f =>
      if f.extension ≠ "md" then s
      else { s with modifiedFiles := addModified s.modifiedFiles f.path }

/-- `app.vault.getAbstractFileByPath` over a vault listing, composed with the
`instanceof TFile` filter of `processModifiedFiles`. -/
def getAbstractFileByPath (vault : List TFile) (p : String) : Option TFile :=
  vault.find? (fun f => f.path = p)

/-- A whole run of `RAGService.indexVault` (lines 384-429): return
immediately when `isIndexing` is set; otherwise filter the vault listing to
markdown files, process them in batches of 10, and clear `isIndexing` in the
`finally`.  Returns the final state and every document submitted. -/
def RAGService.indexVaultRun (read : String → Except String String)
    (ixResult : Document → Except String Unit) (vault : List TFile)
    (s : ServiceState) : ServiceState × List Document :=
  if s.isIndexing then (s, [])
  else
    let markdownFiles := vault.filter (fun f => f.extension = "md")
    let batchResults := (batchChunks markdownFiles).map
      (fun b => RAGService.indexBatch read ixResult b)
    ({ s with isIndexing := false }, (batchResults.map Prod.fst).flatten)

/-- A whole run of `RAGService.processModifiedFiles` (lines 465-494): return
when the modified set is empty; resolve each path in the vault, keeping only
`TFile`s; return when none resolve; otherwise index the batch and clear the
modified set.  Returns the final state and every document submitted. -/
def RAGService.processModifiedFiles (read : String → Except String String)
    (ixResult : Document → Except String Unit) (vault : List TFile)
    (s : ServiceState) : ServiceState × List Document :=
  if s.modifiedFiles.isEmpty then (s, [])
  else
    let files := s.modifiedFiles.filterMap (getAbstractFileByPath vault)
    if files.isEmpty then (s, [])
    else
      let r := RAGService.indexBatch read ixResult files
      ({ s with modifiedFiles := [] }, r.1)

/-- The callback `RAGPlugin.onload` registers for the vault `modify` event
(src/plugin/src/main.ts, lines 75-79): it ignores the event argument and
invokes `handleFileModify` with no file. -/
def onloadModifyCallback (s : ServiceState) (_file : TFile) : ServiceState :=
  RAGService.handleFileModify s none

/-- Vault change notifications the host can raise. -/
inductive VaultEvent where
  | create (f : TFile)
  | modify (f : TFile)
  | delete (f : TFile)
deriving DecidableEq

/-- Dispatch of a vault event through the handlers `RAGPlugin.onload`
registers (src/plugin/src/main.ts, lines 68-80): only `modify` has a handler;
`create` and `delete` have none and change nothing.  The second component
lists the API requests the dispatch issues synchronously. -/
def onloadVaultDispatch (s : ServiceState) : VaultEvent → ServiceState × List ApiRequest
  | .modify f => (onloadModifyCallback s f, [])
  | .create _ => (s, [])
  | .delete _ => (s, [])

/-- Entry points into the indexing machinery of `RAGService`: a `modify`
notification delivered to `handleFileModify`, a full-vault pass, and the
debounced modified-files pass firing. -/
inductive SysOp where
  | modifyFile (file : Option TFile)
  | vaultPass
  | debounceFire
deriving DecidableEq

/-- One entry-point step: the new service state and the documents submitted
to `api.indexDocument` during the step. -/
def runOp (read : String → Except String String)
    (ixResult : Document → Except String Unit) (vault : List TFile)
    (s : ServiceState) : SysOp → ServiceState × List Document
  | .modifyFile f => (RAGService.handleFileModify s f, [])
  | .vaultPass => RAGService.indexVaultRun read ixResult vault s
  | .debounceFire => RAGService.processModifiedFiles read ixResult vault s

/-- Run a sequence of entry-point steps, accumulating every submitted
document. -/
def runOps (read : String → Except String String)
    (ixResult : Document → Except String Unit) (vault : List TFile)
    (s : ServiceState) : List SysOp → ServiceState × List Document
  | [] => (s, [])
  | op :: rest =>
      let r1 := runOp read ixResult vault s op
      let r2 := runOps read ixResult vault r1.1 rest
      (r2.1, r1.2 ++ r2.2)

/-- Service state extended with the paths each async pass is currently
awaiting an `indexBatch` for, to analyse interleavings at `await` points.
`vaultInFlight` holds the batch `indexVault` is awaiting (lines 406-408);
`modInFlight` holds the batch `processModifiedFiles` is awaiting (line 483). -/
structure ConcurrencyState where
  isIndexing : Bool
  modifiedFiles : List String
  vaultInFlight : Option (List String)
  modInFlight : Option (List String)
deriving DecidableEq

/-- `RAGService.handleFileModify` acting on the concurrency-extended state:
same guard and mutation as `handleFileModify`. -/
def markFileModified (s : ConcurrencyState) (f : TFile) : ConcurrencyState :=
  if f.extension ≠ "md" then s
  else { s with modifiedFiles := addModified s.modifiedFiles f.path }

/-- The entry segment of `RAGService.indexVault` up to its first
`await this.indexBatch(batch)` (lines 384-408): return unchanged when
`isIndexing` is set; otherwise set `isIndexing`, filter to markdown files
and start awaiting the first batch of 10. -/
def startIndexVaultPass (vault : List TFile) (s : ConcurrencyState) :
    ConcurrencyState :=
  if s.isIndexing then s
  else
    let markdownFiles := vault.filter (fun f => f.extension = "md")
    { s with isIndexing := true,
             vaultInFlight := some ((markdownFiles.take 10).map (fun f => f.path)) }

/-- The entry segment of `RAGService.processModifiedFiles` up to its
`await this.indexBatch(files)` (lines 465-483): return when the modified set
is empty or no path resolves; otherwise start awaiting the resolved batch.
The guard inspects only `modifiedFiles`, never `isIndexing`. -/
def startModifiedPass (vault : List TFile) (s : ConcurrencyState) :
    ConcurrencyState :=
  if s.modifiedFiles.isEmpty then s
  else
    let files := s.modifiedFiles.filterMap (getAbstractFileByPath vault)
    if files.isEmpty then s
    else { s with modInFlight := some (files.map (fun f => f.path)) }

/-- The `SettingsData` object as JavaScript holds it: every property may be
absent (`undefined`), since object literals and `Object.assign` give no
totality guarantee (src/plugin/src/types.ts, lines 3-17). -/
structure SettingsData where
  serverUrl : Option String
  apiKey : Option String
  autoStartServer : Option Bool
  embedModel : Option String
  maxResults : Option Nat
  chunkSize : Option Nat
  chunkOverlap : Option Nat
  preserveMarkdown : Option Bool
  useNeuralEngine : Option Bool
  debugMode : Option Bool
  cacheEnabled : Option Bool
  maxCacheSize : Option Nat
deriving DecidableEq

/-- `DEFAULT_SETTINGS` (src/plugin/src/settings.ts, lines 5-16): the object
literal sets ten properties; `cacheEnabled` and `maxCacheSize` are absent
despite the `SettingsData` annotation. -/
def DEFAULT_SETTINGS : SettingsData :=
  { serverUrl := some "http://localhost:8000",
    apiKey := some "",
    autoStartServer := some true,
    embedModel := some "all-MiniLM-L6-v2",
    maxResults := some 5,
    chunkSize := some 500,
    chunkOverlap := some 50,
    preserveMarkdown := some true,
    useNeuralEngine := some true,
    debugMode := some false,
    cacheEnabled := none,
    maxCacheSize := none }

/-- The stored plugin data of a fresh install: `loadData()` yields nothing,
so every property is absent. -/
def emptyStoredData : SettingsData :=
  { serverUrl := none, apiKey := none, autoStartServer := none,
    embedModel := none, maxResults := none, chunkSize := none,
    chunkOverlap := none, preserveMarkdown := none, useNeuralEngine := none,
    debugMode := none, cacheEnabled := none, maxCacheSize := none }

/-- `Object.assign(\x7b\x7d, base, overlay)`: each property of the overlay,
when present, overrides the base. -/
def objectAssign (base overlay : SettingsData) : SettingsData :=
  { serverUrl := overlay.serverUrl.orElse (fun _ => base.serverUrl),
    apiKey := overlay.apiKey.orElse (fun _ => base.apiKey),
    autoStartServer := overlay.autoStartServer.orElse (fun _ => base.autoStartServer),
    embedModel := overlay.embedModel.orElse (fun _ => base.embedModel),
    maxResults := overlay.maxResults.orElse (fun _ => base.maxResults),
    chunkSize := overlay.chunkSize.orElse (fun _ => base.chunkSize),
    chunkOverlap := overlay.chunkOverlap.orElse (fun _ => base.chunkOverlap),
    preserveMarkdown := overlay.preserveMarkdown.orElse (fun _ => base.preserveMarkdown),
    useNeuralEngine := overlay.useNeuralEngine.orElse (fun _ => base.useNeuralEngine),
    debugMode := overlay.debugMode.orElse (fun _ => base.debugMode),
    cacheEnabled := overlay.cacheEnabled.orElse (fun _ => base.cacheEnabled),
    maxCacheSize := overlay.maxCacheSize.orElse (fun _ => base.maxCacheSize) }

/-- `RAGPlugin.loadSettings` (src/plugin/src/main.ts, lines 86-88):
`Object.assign(\x7b\x7d, DEFAULT_SETTINGS, await this.loadData())`. -/
def RAGPlugin.loadSettings (stored : SettingsData) : SettingsData :=
  objectAssign DEFAULT_SETTINGS stored

/-- A JavaScript truthiness test on a possibly-undefined boolean
(`undefined` is falsy). -/
def jsTruthy : Option Bool → Bool
  | some b => b
  | none => false

/-- `x.toString()` on a possibly-undefined number: throws a `TypeError` when
the value is undefined. -/
def jsNatToString : Option Nat → Except String String
  | some n => .ok (toString n)
  | none => .error "TypeError: undefined has no toString"

/-- The port of `new URL(u)`: the digits after the last colon. -/
def urlPort (u : String) : String := (u.splitOn ":").reverse.headD ""

/-- The environment object `ServerManager.startServer` builds
(src/plugin/src/api/RAGApi.ts, server part, lines 172-181), with the
JavaScript evaluation order of its property initialisers: `new URL` on an
undefined `serverUrl` and `.toString()` on an undefined `maxCacheSize` both
throw. -/
def startServerEnv (s : SettingsData) : Except String (List (String × String)) := do
  let url ← match s.serverUrl with
            | some u => Except.ok u
            | none => Except.error "TypeError: Invalid URL"
  let cacheSizeStr ← jsNatToString s.maxCacheSize
  Except.ok
    [("PYTHONUNBUFFERED", "1"),
     ("RAG_SERVER_PORT", urlPort url),
     ("RAG_DEBUG", if jsTruthy s.debugMode then "1" else "0"),
     ("RAG_CACHE_ENABLED", if jsTruthy s.cacheEnabled then "1" else "0"),
     ("RAG_CACHE_SIZE_MB", cacheSizeStr),
     ("RAG_USE_NEURAL_ENGINE", if jsTruthy s.useNeuralEngine then "1" else "0")]

/-- The slider limits `(min, max, step)` a settings slider is built with. -/
structure SliderLimits where
  lo : Nat
  hi : Nat
  step : Nat
deriving DecidableEq

/-- The Chunk Size slider of `RAGSettingTab.display`
(src/plugin/src/settings.ts, line 94): `setLimits(100, 1000, 50)`. -/
def chunkSizeSlider : SliderLimits := { lo := 100, hi := 1000, step := 50 }

/-- The Chunk Overlap slider of `RAGSettingTab.display`
(src/plugin/src/settings.ts, line 106): `setLimits(0, 200, 10)`. -/
def chunkOverlapSlider : SliderLimits := { lo := 0, hi := 200, step := 10 }

/-- Whether a slider with these limits can produce the value: within range
and on the step grid.  The settings tab applies no further validation. -/
def SliderLimits.accepts (l : SliderLimits) (v : Nat) : Bool :=
  decide (l.lo ≤ v) && decide (v ≤ l.hi) && decide ((v - l.lo) % l.step = 0)

/-- The Chunk Size `onChange` handler (src/plugin/src/settings.ts,
lines 97-100): store the slider value unchanged and save. -/
def setChunkSize (s : SettingsData) (v : Nat) : SettingsData :=
  { s with chunkSize := some v }

/-- The Chunk Overlap `onChange` handler (src/plugin/src/settings.ts,
lines 109-112): store the slider value unchanged and save. -/
def setChunkOverlap (s : SettingsData) (v : Nat) : SettingsData :=
  { s with chunkOverlap := some v }

/-- A chat source entry (`ChatResponse.sources` element). -/
structure ChatSource where
  file : String
  chunk : String
  similarity : Option Int
deriving DecidableEq

/-- The `/chat` endpoint response the view consumes. -/
structure ChatResponseData where
  response : String
  sources : List ChatSource
deriving DecidableEq

/-- The role of a chat message. -/
inductive ChatRole where
  | user
  | assistant
deriving DecidableEq

/-- A message of the chat transcript (src/plugin/src/views/ChatView.tsx,
`ChatMessage`). -/
structure ChatMessage where
  role : ChatRole
  content : String
  sources : Option (List ChatSource)
deriving DecidableEq

/-- The React state of `ChatViewComponent`. -/
structure ChatViewState where
  messages : List ChatMessage
  input : String
  loading : Bool
  error : Option String
deriving DecidableEq

/-- `input.trim()`: strip leading and trailing whitespace. -/
def jsTrim (s : String) : String :=
  String.mk (((s.data.dropWhile Char.isWhitespace).reverse.dropWhile Char.isWhitespace).reverse)

/-- `ChatViewComponent.handleSubmit` (src/plugin/src/views/ChatView.tsx,
lines 55-90) as a function of the pre-state and the outcome of the
`api.chat` call: empty input returns unchanged; otherwise the user message
is appended and loading set; on success an assistant message is appended and
the input cleared; on failure only the error indication is set. -/
def ChatViewComponent.handleSubmit (s : ChatViewState)
    (chatResult : Except String ChatResponseData) : ChatViewState :=
  if jsTrim s.input = "" then s
  else
    let newMessages := s.messages ++ [{ role := .user, content := s.input, sources := none }]
    match chatResult with
    | .ok r =>
        { messages := newMessages ++
            [{ role := .assistant, content := r.response, sources := some r.sources }],
          input := "", loading := false, error := none }
    | .error _ =>
        { messages := newMessages, input := s.input, loading := false,
          error := some "Failed to get response from server" }

/-! ## Demonstration values used by witnesses and counterexamples -/

/-- A markdown file of the vault. -/
def demoMdFile : TFile := { path := "a.md", name := "a.md", size := 5, ctime := 0, mtime := 0 }

/-- A markdown file whose read fails. -/
def demoBadFile : TFile := { path := "missing.md", name := "missing.md", size := 0, ctime := 0, mtime := 0 }

/-- A one-file vault listing. -/
def demoVault : List TFile := [demoMdFile]

/-- A vault read that succeeds only for `a.md`. -/
def demoRead : String → Except String String :=
  fun p => if p = "a.md" then .ok "hello" else .error "ENOENT"

/-- An index capability that always fails. -/
def demoIxFail : Document → Except String Unit := fun _ => .error "HTTP 500"

/-- An index capability that always succeeds. -/
def demoIxOk : Document → Except String Unit := fun _ => .ok ()

/-! ## Helper lemmas -/

/-- The catch around a per-file task keeps its submissions. -/
theorem tryCatchLogged_fst (p : List Document × Except String Unit) :
    (tryCatchLogged p).1 = p.1 := by
  rcases p with ⟨c, r⟩
  cases r <;> rfl

/-- The catch around a per-file task always resolves. -/
theorem tryCatchLogged_snd (p : List Document × Except String Unit) :
    (tryCatchLogged p).2 = Except.ok () := by
  rcases p with ⟨c, r⟩
  cases r with
  | error e => rfl
  | ok u => cases u; rfl

/-- `promiseAll` concatenates the tasks' submissions. -/
theorem promiseAll_fst : ∀ l : List (List Document × Except String Unit),
    (promiseAll l).1 = (l.map Prod.fst).flatten
  | [] => rfl
  | p :: rest => by
      rcases p with ⟨c, r⟩
      simp [promiseAll, promiseAll_fst rest]

/-- `promiseAll` resolves when every task resolves. -/
theorem promiseAll_ok : ∀ l : List (List Document × Except String Unit),
    (∀ p ∈ l, p.2 = Except.ok ()) → (promiseAll l).2 = Except.ok ()
  | [], _ => rfl
  | p :: rest, h => by
      rcases p with ⟨c, r⟩
      have hr := h _ (List.mem_cons_self _ _)
      simp only at hr
      simp [promiseAll, hr, promiseAll_ok rest (fun q hq => h q (List.mem_cons_of_mem _ hq))]

/-- `indexBatch` always resolves: each per-file closure is caught. -/
theorem indexBatch_snd (read : String → Except String String)
    (ixResult : Document → Except String Unit) (files : List TFile) :
    (RAGService.indexBatch read ixResult files).2 = Except.ok () := by
  apply promiseAll_ok
  intro p hp
  rcases List.mem_map.mp hp with ⟨f, _, rfl⟩
  exact tryCatchLogged_snd _

/-- The submissions of `indexBatch` are the per-file submissions in order. -/
theorem indexBatch_fst (read : String → Except String String)
    (ixResult : Document → Except String Unit) (files : List TFile) :
    (RAGService.indexBatch read ixResult files).1 =
      (files.map (fun f => (indexFileAttempt read ixResult f).1)).flatten := by
  unfold RAGService.indexBatch
  rw [promiseAll_fst]
  simp [List.map_map, Function.comp_def, tryCatchLogged_fst]

/-- A document appears among one file's submissions exactly when its read
succeeded and the document packages that content. -/
theorem mem_indexFileAttempt_fst (read : String → Except String String)
    (ixResult : Document → Except String Unit) (f : TFile) (d : Document) :
    d ∈ (indexFileAttempt read ixResult f).1 ↔
      ∃ c, read f.path = Except.ok c ∧ d = mkDocument f c := by
  unfold indexFileAttempt
  cases h : read f.path with
  | error e => simp [h]
  | ok c => simp [h]

/-- Characterisation of the documents `indexBatch` submits. -/
theorem mem_indexBatch_fst (read : String → Except String String)
    (ixResult : Document → Except String Unit) (files : List TFile) (d : Document) :
    d ∈ (RAGService.indexBatch read ixResult files).1 ↔
      ∃ f ∈ files, ∃ c, read f.path = Except.ok c ∧ d = mkDocument f c := by
  rw [indexBatch_fst]
  simp only [List.mem_flatten, List.mem_map]
  constructor
  · rintro ⟨l, ⟨f, hf, rfl⟩, hd⟩
    rcases (mem_indexFileAttempt_fst read ixResult f d).mp hd with ⟨c, hc, rfl⟩
    exact ⟨f, hf, c, hc, rfl⟩
  · rintro ⟨f, hf, c, hc, rfl⟩
    exact ⟨_, ⟨f, hf, rfl⟩, (mem_indexFileAttempt_fst read ixResult f _).mpr ⟨c, hc, rfl⟩⟩

/-- Every batch produced by the fuelled batching loop draws from the input
list. -/
theorem batchChunksFuel_subset (n : Nat) : ∀ (l : List TFile), ∀ b ∈ batchChunksFuel n l, b ⊆ l := by
  induction n with
  | zero =>
      intro l b hb
      cases l <;> simp [batchChunksFuel] at hb
  | succ m ih =>
      intro l b hb
      cases l with
      | nil => simp [batchChunksFuel] at hb
      | cons f rest =>
          rw [batchChunksFuel] at hb
          rcases List.mem_cons.mp hb with h | h
          · subst h
            intro x hx
            rcases List.mem_cons.mp hx with h2 | h2
            · exact h2 ▸ List.mem_cons_self _ _
            · exact List.mem_cons_of_mem _ (List.take_subset _ _ h2)
          · intro x hx
            exact List.mem_cons_of_mem _
              (List.drop_subset _ _ (ih (rest.drop 9) b h hx))

/-- Every batch produced by the batching loop draws from the input list. -/
theorem batchChunks_subset (l : List TFile) : ∀ b ∈ batchChunks l, b ⊆ l :=
  batchChunksFuel_subset l.length l

/-! ## Claim C1 -/

/-- Claim C1: a host `modify` notification is dropped.  The callback
registered in `RAGPlugin.onload` ignores the event argument and calls
`handleFileModify` with no file, so the guard returns immediately: the
modified path is never added to the modified-files set, no API request is
issued, and — starting from the fresh service state — the debounced pass
later finds an empty set and issues no index upsert either.  This refutes
the claimed behaviour and exhibits the code bug. -/
theorem C1_modify_event_dropped (read : String → Except String String)
    (ixResult : Document → Except String Unit) (vault : List TFile)
    (s : ServiceState) (f : TFile) :
    onloadVaultDispatch s (VaultEvent.modify f) = (s, []) ∧
    RAGService.processModifiedFiles read ixResult vault
        (onloadVaultDispatch initialServiceState (VaultEvent.modify f)).1 =
      (initialServiceState, []) := by
  exact ⟨rfl, rfl⟩

/-! ## Claim C2 -/

/-- Claim C2, counterexample: delivering a `Delete` event for the markdown
document `a.md` through the handlers `onload` registers changes nothing and
issues no API request at all — in particular no
`remove_all_for_document("a.md")` call is made and no in-flight work is
dropped. -/
theorem C2_counterexample :
    onloadVaultDispatch initialServiceState (VaultEvent.delete demoMdFile) =
      (initialServiceState, []) := rfl

/-- Claim C2 (amended): `RAGPlugin.onload` registers vault handlers only for
`modify`; a `Delete` event for any path is ignored — the service state is
unchanged and no API request (hence no `remove_all_for_document`) is
issued. -/
theorem C2_amended (s : ServiceState) (f : TFile) :
    onloadVaultDispatch s (VaultEvent.delete f) = (s, []) := rfl

/-! ## Claim C5 -/

/-- Claim C5: a per-document failure does not abort a batch indexing pass.
For every read capability, index outcome and file list, `indexBatch`
completes with `ok` (no per-document error propagates), and every file whose
read succeeds is still submitted for indexing, whatever happens to the other
files or to its own index request. -/
theorem C5_batch_tolerates_failures (read : String → Except String String)
    (ixResult : Document → Except String Unit) (files : List TFile) :
    (RAGService.indexBatch read ixResult files).2 = Except.ok () ∧
    ∀ f ∈ files, ∀ c, read f.path = Except.ok c →
      mkDocument f c ∈ (RAGService.indexBatch read ixResult files).1 := by
  refine ⟨indexBatch_snd read ixResult files, ?_⟩
  intro f hf c hc
  exact (mem_indexBatch_fst read ixResult files _).mpr ⟨f, hf, c, hc, rfl⟩

/-- Witness for C5: a batch of two files in which the first file's read
fails and the second file's index request fails still resolves with `ok`,
and the second file was submitted. -/
theorem C5_witness :
    (RAGService.indexBatch demoRead demoIxFail [demoBadFile, demoMdFile]).2 = Except.ok () ∧
    mkDocument demoMdFile "hello" ∈
      (RAGService.indexBatch demoRead demoIxFail [demoBadFile, demoMdFile]).1 := by
  have h := C5_batch_tolerates_failures demoRead demoIxFail [demoBadFile, demoMdFile]
  exact ⟨h.1, h.2 demoMdFile (by simp) "hello" rfl⟩

/-! ## Claim C10 -/

/-- Claim C10: `RAGApi.request` fails with message
`API request failed: <statusText>` exactly when the response is not ok, and
returns the parsed JSON body exactly when it is ok; consequently each public
operation (`search`, `chat`, `getServerStatus`, `indexDocument`) fails with
that message precisely when the server answers its request
unsuccessfully. -/
theorem C10_request_error_iff (server : ApiRequest → HttpResponse)
    (q : String) (n : Nat) (vaultName : Option String) (d : Document) :
    (∀ r : HttpResponse,
      ((∃ m, RAGApi.request r = Except.error m ∧ m = "API request failed: " ++ r.statusText)
        ↔ r.ok = false) ∧
      (RAGApi.request r = Except.ok r.body ↔ r.ok = true)) ∧
    RAGApi.search server q n =
      (if (server (RAGApi.searchRequest q n)).ok then
        Except.ok (server (RAGApi.searchRequest q n)).body
       else
        Except.error ("API request failed: " ++ (server (RAGApi.searchRequest q n)).statusText)) ∧
    RAGApi.chat server q vaultName =
      (if (server (RAGApi.chatRequest q vaultName)).ok then
        Except.ok (server (RAGApi.chatRequest q vaultName)).body
       else
        Except.error ("API request failed: " ++ (server (RAGApi.chatRequest q vaultName)).statusText)) ∧
    RAGApi.getServerStatus server =
      (if (server RAGApi.getServerStatusRequest).ok then
        Except.ok (server RAGApi.getServerStatusRequest).body
       else
        Except.error ("API request failed: " ++ (server RAGApi.getServerStatusRequest).statusText)) ∧
    RAGApi.indexDocument server d =
      (if (server (RAGApi.indexDocumentRequest d)).ok then
        Except.ok ()
       else
        Except.error ("API request failed: " ++ (server (RAGApi.indexDocumentRequest d)).statusText)) := by
  have hreq : ∀ r : HttpResponse,
      RAGApi.request r =
        (if r.ok then Except.ok r.body
         else Except.error ("API request failed: " ++ r.statusText)) := by
    intro r
    unfold RAGApi.request
    cases r.ok <;> simp
  refine ⟨?_, ?_, ?_, ?_, ?_⟩
  · intro r
    constructor
    · rw [hreq r]
      cases h : r.ok <;> simp
    · rw [hreq r]
      cases h : r.ok <;> simp
  · rw [RAGApi.search, hreq]
  · rw [RAGApi.chat, hreq]
  · rw [RAGApi.getServerStatus, hreq]
  · rw [RAGApi.indexDocument, hreq]
    cases (server (RAGApi.indexDocumentRequest d)).ok <;> simp [Except.map]

/-! ## Claim C3 -/

/-- Claim C3, counterexample: a concrete interleaving in which a full-vault
pass and the debounced modified-files pass are both awaiting an
`indexBatch` covering the same path `a.md` at the same time.  After a modify
notification records `a.md`, `indexVault` starts (setting `isIndexing`) and
awaits its first batch; the debounce then fires and
`processModifiedFiles` — whose guard checks only that the modified set is
nonempty, never `isIndexing` — starts awaiting its own batch for the same
path. -/
theorem C3_counterexample :
    (startIndexVaultPass demoVault
        (markFileModified
          { isIndexing := false, modifiedFiles := [],
            vaultInFlight := none, modInFlight := none } demoMdFile)).isIndexing = true ∧
    (startModifiedPass demoVault
        (startIndexVaultPass demoVault
          (markFileModified
            { isIndexing := false, modifiedFiles := [],
              vaultInFlight := none, modInFlight := none } demoMdFile))).vaultInFlight =
      some ["a.md"] ∧
    (startModifiedPass demoVault
        (startIndexVaultPass demoVault
          (markFileModified
            { isIndexing := false, modifiedFiles := [],
              vaultInFlight := none, modInFlight := none } demoMdFile))).modInFlight =
      some ["a.md"] := by
  refine ⟨by decide, by decide, by decide⟩

/-- Claim C3 (amended): full-vault passes are serialized against each other
by the global `isIndexing` flag — starting a second `indexVault` while one
is in flight is a no-op — but per-path serialization is not enforced: the
batch started by the modified-files pass is independent of `isIndexing`, so
it may cover a path concurrently with the vault pass. -/
theorem C3_amended (vault : List TFile) (s : ConcurrencyState)
    (h : s.isIndexing = true) :
    startIndexVaultPass vault s = s ∧
    (startModifiedPass vault s).modInFlight =
      (startModifiedPass vault { s with isIndexing := false }).modInFlight := by
  constructor
  · unfold startIndexVaultPass
    simp [h]
  · unfold startModifiedPass
    by_cases h1 : s.modifiedFiles.isEmpty
    · simp [h1]
    · simp only [h1, Bool.false_eq_true, if_false]
      by_cases h2 : (s.modifiedFiles.filterMap (getAbstractFileByPath vault)).isEmpty
      · simp [h2]
      · simp [h2]

/-- Witness for C3 (amended), at a state with a vault pass in flight. -/
theorem C3_witness :
    startIndexVaultPass demoVault
        { isIndexing := true, modifiedFiles := ["a.md"],
          vaultInFlight := some ["a.md"], modInFlight := none } =
      { isIndexing := true, modifiedFiles := ["a.md"],
        vaultInFlight := some ["a.md"], modInFlight := none } ∧
    (startModifiedPass demoVault
        { isIndexing := true, modifiedFiles := ["a.md"],
          vaultInFlight := some ["a.md"], modInFlight := none }).modInFlight =
      (startModifiedPass demoVault
        { isIndexing := false, modifiedFiles := ["a.md"],
          vaultInFlight := some ["a.md"], modInFlight := none }).modInFlight :=
  C3_amended demoVault
    { isIndexing := true, modifiedFiles := ["a.md"],
      vaultInFlight := some ["a.md"], modInFlight := none } rfl

/-! ## Claim C4 -/

/-- Claim C4, counterexample: the Chunk Size slider accepts 100 and the
Chunk Overlap slider accepts 200, and this configuration — with overlap
twice the chunk size — is persisted verbatim by the `onChange` handlers: no
rejection, no clamping, and no `ConfigurationError` (no such error exists
anywhere in the plugin). -/
theorem C4_counterexample :
    chunkSizeSlider.accepts 100 = true ∧
    chunkOverlapSlider.accepts 200 = true ∧
    (setChunkOverlap (setChunkSize DEFAULT_SETTINGS 100) 200).chunkSize = some 100 ∧
    (setChunkOverlap (setChunkSize DEFAULT_SETTINGS 100) 200).chunkOverlap = some 200 ∧
    100 ≤ 200 := by
  refine ⟨by decide, by decide, rfl, rfl, by decide⟩

/-- Claim C4 (amended): the settings UI constrains the two chunk parameters
only independently — chunk size to the slider grid 100..1000 step 50 and
chunk overlap to 0..200 step 10.  Any pair of slider-acceptable values,
including pairs with overlap ≥ size, is stored unchanged; no overlap < size
validation, clamping or `ConfigurationError` exists. -/
theorem C4_amended (a b : Nat) (s : SettingsData)
    (ha : chunkSizeSlider.accepts a = true)
    (hb : chunkOverlapSlider.accepts b = true) :
    (setChunkOverlap (setChunkSize s a) b).chunkSize = some a ∧
    (setChunkOverlap (setChunkSize s a) b).chunkOverlap = some b ∧
    100 ≤ a ∧ a ≤ 1000 ∧ b ≤ 200 := by
  simp only [SliderLimits.accepts, chunkSizeSlider, chunkOverlapSlider,
    Bool.and_eq_true, decide_eq_true_eq] at ha hb
  exact ⟨rfl, rfl, ha.1.1, ha.1.2, hb.1.2⟩

/-- Witness for C4 (amended) at the accepted pair (150, 40). -/
theorem C4_witness :
    (setChunkOverlap (setChunkSize DEFAULT_SETTINGS 150) 40).chunkSize = some 150 ∧
    (setChunkOverlap (setChunkSize DEFAULT_SETTINGS 150) 40).chunkOverlap = some 40 ∧
    100 ≤ 150 ∧ 150 ≤ 1000 ∧ 40 ≤ 200 :=
  C4_amended 150 40 DEFAULT_SETTINGS (by decide) (by decide)

/-! ## Claim C6 -/

/-- Claim C6: when the chat capability call fails, `handleSubmit` surfaces
the failure and fabricates no answer: the transcript gains exactly the
user's message (any assistant message present was already there), the error
indication is set, and loading ends. -/
theorem C6_generation_failure_no_fabrication (s : ChatViewState) (e : String)
    (h : jsTrim s.input ≠ "") :
    (ChatViewComponent.handleSubmit s (Except.error e)).messages =
      s.messages ++ [{ role := .user, content := s.input, sources := none }] ∧
    (ChatViewComponent.handleSubmit s (Except.error e)).error =
      some "Failed to get response from server" ∧
    (ChatViewComponent.handleSubmit s (Except.error e)).loading = false ∧
    ∀ m ∈ (ChatViewComponent.handleSubmit s (Except.error e)).messages,
      m.role = ChatRole.assistant → m ∈ s.messages := by
  unfold ChatViewComponent.handleSubmit
  rw [if_neg h]
  refine ⟨rfl, rfl, rfl, ?_⟩
  intro m hm hrole
  rcases List.mem_append.mp hm with h1 | h1
  · exact h1
  · rcases List.mem_singleton.mp h1 with rfl
    simp at hrole

/-- Witness for C6: submitting `hello` while the chat call fails leaves a
transcript holding only the user message, with the error set. -/
theorem C6_witness :
    (ChatViewComponent.handleSubmit
        { messages := [], input := "hello", loading := false, error := none }
        (Except.error "boom")).messages =
      [{ role := .user, content := "hello", sources := none }] ∧
    (ChatViewComponent.handleSubmit
        { messages := [], input := "hello", loading := false, error := none }
        (Except.error "boom")).error =
      some "Failed to get response from server" ∧
    (ChatViewComponent.handleSubmit
        { messages := [], input := "hello", loading := false, error := none }
        (Except.error "boom")).loading = false := by
  have h := C6_generation_failure_no_fabrication
    { messages := [], input := "hello", loading := false, error := none }
    "boom" (by decide)
  exact ⟨h.1, h.2.1, h.2.2.1⟩

/-! ## Claim C7 -/

/-- A status body shaped as the spec describes `status()`. -/
def specStatusBody : JValue :=
  .obj [("entryCount", .num 0), ("lastIndexedTimestamp", .num 0),
        ("cacheStats", .obj [])]

/-- A status body shaped as the code declares `getServerStatus`. -/
def demoStatusBody : JValue :=
  .obj [("status", .str "ok"), ("version", .str "0.1.0"), ("stats", .obj [])]

/-- Claim C7, counterexample: a body conforming to the declared
`getServerStatus` result type carries none of the fields `entryCount`,
`lastIndexedTimestamp`, `cacheStats` the claim names, and a body carrying
exactly those three fields does not conform to the declared type. -/
theorem C7_counterexample :
    parseServerStatus demoStatusBody =
      some { status := "ok", version := "0.1.0", stats := .obj [] } ∧
    demoStatusBody.lookup "entryCount" = none ∧
    demoStatusBody.lookup "lastIndexedTimestamp" = none ∧
    demoStatusBody.lookup "cacheStats" = none ∧
    parseServerStatus specStatusBody = none := by
  refine ⟨rfl, rfl, rfl, rfl, rfl⟩

/-- Claim C7 (amended): the status operation's declared result record has
the fields `status`, `version` and `stats`: whenever a body conforms to the
declared type, those three lookups succeed with the parsed values. -/
theorem C7_amended (j : JValue) (r : ServerStatusResult)
    (h : parseServerStatus j = some r) :
    j.lookup "status" = some (.str r.status) ∧
    j.lookup "version" = some (.str r.version) ∧
    j.lookup "stats" = some r.stats := by
  unfold parseServerStatus at h
  cases hs : j.lookup "status" with
  | none => simp [hs] at h
  | some js =>
    cases js <;> simp [hs] at h
    case str sv =>
      cases hv : j.lookup "version" with
      | none => simp [hv] at h
      | some jv =>
        cases jv <;> simp [hv] at h
        case str vv =>
          cases ht : j.lookup "stats" with
          | none => simp [ht] at h
          | some st =>
            simp only [ht, Option.some.injEq] at h
            cases h
            exact ⟨rfl, rfl, rfl⟩

/-- Witness for C7 (amended) on the declared-shape demo body. -/
theorem C7_witness :
    demoStatusBody.lookup "status" = some (.str "ok") ∧
    demoStatusBody.lookup "version" = some (.str "0.1.0") ∧
    demoStatusBody.lookup "stats" = some (.obj []) :=
  C7_amended demoStatusBody
    { status := "ok", version := "0.1.0", stats := .obj [] } rfl

/-! ## Claim C8 -/

/-- Claim C8: refuted — `DEFAULT_SETTINGS` omits `cacheEnabled` and
`maxCacheSize` despite its `SettingsData` annotation, so after
`loadSettings` on a fresh install (empty stored data) `maxCacheSize` is
undefined, and the environment construction of `ServerManager.startServer`
throws a `TypeError` on `this.settings.maxCacheSize.toString()`. -/
theorem C8_fresh_install_env_throws :
    (RAGPlugin.loadSettings emptyStoredData).cacheEnabled = none ∧
    (RAGPlugin.loadSettings emptyStoredData).maxCacheSize = none ∧
    startServerEnv (RAGPlugin.loadSettings emptyStoredData) =
      Except.error "TypeError: undefined has no toString" := by
  refine ⟨rfl, rfl, rfl⟩

/-! ## Claim C9 -/

/-- Every path of the list has extension `md`. -/
def allMarkdownPaths (paths : List String) : Prop :=
  ∀ p ∈ paths, pathExtension p = "md"

/-- Membership after inserting into the modified-files set. -/
theorem mem_addModified {paths : List String} {q p : String}
    (h : p ∈ addModified paths q) : p ∈ paths ∨ p = q := by
  unfold addModified at h
  split at h
  · exact Or.inl h
  · rcases List.mem_append.mp h with h1 | h1
    · exact Or.inl h1
    · exact Or.inr (List.mem_singleton.mp h1)

/-- `handleFileModify` only ever adds markdown paths to the modified set. -/
theorem handleFileModify_preserves_md {s : ServiceState} {file : Option TFile}
    (hs : allMarkdownPaths s.modifiedFiles) :
    allMarkdownPaths (RAGService.handleFileModify s file).modifiedFiles := by
  cases file with
  | none => exact hs
  | some f =>
    by_cases hext : f.extension = "md"
    · have hred : (RAGService.handleFileModify s (some f)).modifiedFiles =
          addModified s.modifiedFiles f.path := by
        simp [RAGService.handleFileModify, hext]
      rw [hred]
      intro p hp
      rcases mem_addModified hp with h1 | h1
      · exact hs p h1
      · exact h1 ▸ hext
    · have hred : (RAGService.handleFileModify s (some f)).modifiedFiles =
          s.modifiedFiles := by
        simp [RAGService.handleFileModify, hext]
      rw [hred]
      exact hs

/-- `indexVault` never touches the modified-files set. -/
theorem indexVaultRun_modifiedFiles (read : String → Except String String)
    (ixResult : Document → Except String Unit) (vault : List TFile)
    (s : ServiceState) :
    (RAGService.indexVaultRun read ixResult vault s).1.modifiedFiles =
      s.modifiedFiles := by
  unfold RAGService.indexVaultRun
  split <;> rfl

/-- Every document a vault pass submits has a markdown path: the vault
listing is filtered on `extension === md` before batching. -/
theorem indexVaultRun_calls_md (read : String → Except String String)
    (ixResult : Document → Except String Unit) (vault : List TFile)
    (s : ServiceState) :
    ∀ d ∈ (RAGService.indexVaultRun read ixResult vault s).2,
      pathExtension d.metadata.path = "md" := by
  intro d hd
  simp only [RAGService.indexVaultRun] at hd
  split at hd
  · simp at hd
  · rw [List.map_map] at hd
    rcases List.mem_flatten.mp hd with ⟨l, hl, hdl⟩
    rcases List.mem_map.mp hl with ⟨b, hb, rfl⟩
    simp only [Function.comp_apply] at hdl
    rcases (mem_indexBatch_fst read ixResult b d).mp hdl with ⟨f, hf, c, _, rfl⟩
    have hfm : f ∈ vault.filter (fun g => g.extension = "md") :=
      batchChunks_subset _ b hb hf
    have hext : f.extension = "md" := by
      have := (List.mem_filter.mp hfm).2
      exact of_decide_eq_true this
    exact hext

/-- The modified-files pass either leaves the modified set alone or clears
it. -/
theorem processModifiedFiles_modifiedFiles (read : String → Except String String)
    (ixResult : Document → Except String Unit) (vault : List TFile)
    (s : ServiceState) :
    (RAGService.processModifiedFiles read ixResult vault s).1.modifiedFiles =
        s.modifiedFiles ∨
    (RAGService.processModifiedFiles read ixResult vault s).1.modifiedFiles = [] := by
  simp only [RAGService.processModifiedFiles]
  split
  · exact Or.inl rfl
  · split
    · exact Or.inl rfl
    · exact Or.inr rfl

/-- A successful vault lookup returns a file at exactly the looked-up
path. -/
theorem getAbstractFileByPath_path {vault : List TFile} {p : String} {f : TFile}
    (h : getAbstractFileByPath vault p = some f) : f.path = p := by
  induction vault with
  | nil => simp [getAbstractFileByPath] at h
  | cons g rest ih =>
      by_cases hg : g.path = p
      · have : getAbstractFileByPath (g :: rest) p = some g := by
          simp [getAbstractFileByPath, List.find?, hg]
        rw [this] at h
        cases h
        exact hg
      · have : getAbstractFileByPath (g :: rest) p = getAbstractFileByPath rest p := by
          simp [getAbstractFileByPath, List.find?, hg]
        rw [this] at h
        exact ih h

/-- When the modified set holds only markdown paths, every document the
modified-files pass submits has a markdown path: the batch is built by
resolving exactly those paths in the vault. -/
theorem processModifiedFiles_calls_md (read : String → Except String String)
    (ixResult : Document → Except String Unit) (vault : List TFile)
    (s : ServiceState) (hs : allMarkdownPaths s.modifiedFiles) :
    ∀ d ∈ (RAGService.processModifiedFiles read ixResult vault s).2,
      pathExtension d.metadata.path = "md" := by
  intro d hd
  simp only [RAGService.processModifiedFiles] at hd
  split at hd
  · simp at hd
  · split at hd
    · simp at hd
    · rcases (mem_indexBatch_fst read ixResult _ d).mp hd with ⟨f, hf, c, _, rfl⟩
      rcases List.mem_filterMap.mp hf with ⟨p, hp, hfind⟩
      have hpath : f.path = p := getAbstractFileByPath_path hfind
      show pathExtension f.path = "md"
      rw [hpath]
      exact hs p hp

/-- The markdown invariant: starting from a modified set of markdown paths,
any sequence of entry-point steps keeps the set markdown-only and submits
only markdown documents. -/
theorem runOps_markdown (read : String → Except String String)
    (ixResult : Document → Except String Unit) (vault : List TFile) :
    ∀ (ops : List SysOp) (s : ServiceState), allMarkdownPaths s.modifiedFiles →
      allMarkdownPaths (runOps read ixResult vault s ops).1.modifiedFiles ∧
      ∀ d ∈ (runOps read ixResult vault s ops).2, pathExtension d.metadata.path = "md"
  | [], s, hs => ⟨hs, by simp [runOps]⟩
  | op :: rest, s, hs => by
      have hstep : allMarkdownPaths (runOp read ixResult vault s op).1.modifiedFiles ∧
          ∀ d ∈ (runOp read ixResult vault s op).2,
            pathExtension d.metadata.path = "md" := by
        cases op with
        | modifyFile f =>
            exact ⟨handleFileModify_preserves_md hs, by simp [runOp]⟩
        | vaultPass =>
            refine ⟨?_, indexVaultRun_calls_md read ixResult vault s⟩
            show allMarkdownPaths (RAGService.indexVaultRun read ixResult vault s).1.modifiedFiles
            rw [indexVaultRun_modifiedFiles]
            exact hs
        | debounceFire =>
            refine ⟨?_, processModifiedFiles_calls_md read ixResult vault s hs⟩
            show allMarkdownPaths
              (RAGService.processModifiedFiles read ixResult vault s).1.modifiedFiles
            rcases processModifiedFiles_modifiedFiles read ixResult vault s with h | h
            · rw [h]; exact hs
            · rw [h]; intro p hp; simp at hp
      have hrest := runOps_markdown read ixResult vault rest
        (runOp read ixResult vault s op).1 hstep.1
      refine ⟨hrest.1, ?_⟩
      intro d hd
      simp only [runOps] at hd
      rcases List.mem_append.mp hd with h | h
      · exact hstep.2 d h
      · exact hrest.2 d h

/-- Claim C9: only markdown documents are ever submitted for indexing.
Whatever the read/index outcomes, the vault contents, and the sequence of
modify notifications, vault passes and debounce firings, every document
submitted to `api.indexDocument` from the fresh service state has a path
with extension `md`: `indexVault` filters the listing to markdown files and
`handleFileModify` ignores non-markdown files. -/
theorem C9_only_markdown_submitted (read : String → Except String String)
    (ixResult : Document → Except String Unit) (vault : List TFile)
    (ops : List SysOp) :
    ∀ d ∈ (runOps read ixResult vault initialServiceState ops).2,
      pathExtension d.metadata.path = "md" :=
  fun d hd =>
    (runOps_markdown read ixResult vault ops initialServiceState
      (by intro p hp; simp [initialServiceState] at hp)).2 d hd

/-- Witness for C9: a vault pass over a one-file vault submits the markdown
document built from `a.md`, and its path indeed has extension `md`. -/
theorem C9_witness :
    pathExtension (mkDocument demoMdFile "hello").metadata.path = "md" := by
  apply C9_only_markdown_submitted demoRead demoIxOk demoVault [SysOp.vaultPass]
  decide

end ObsidianRAG
